import Mathlib

/-!
Shallow embedding of the incremental mail-sync script (`read_email.py`):
state store (`load_state`, `prune_seen_ids`), query-window computation,
HTML-to-text conversion, MIME content extraction, the classifier adapter
(`autolabel_openai`, `analyze_email_with_llm`) and the per-message loop of
`main`.  Timestamps are rationals (the script divides millisecond integers
by 1000); Python truthiness on a possibly-absent timestamp (`if not last_ts`)
is modelled explicitly, since `None` and `0` are both falsy.
-/

namespace MindMyEmail

/-! ### Python string helpers -/

/-- Whitespace as recognised by Python `str.strip()` (ASCII subset). -/
def pySpace (c : Char) : Bool :=
  c = ' ' || c = '\t' || c = '\n' || c = '\r' || c = '\x0b' || c = '\x0c'

/-- Python `str.strip()` on a character list: drop whitespace from both ends. -/
def pyStripL (s : List Char) : List Char :=
  (((s.dropWhile pySpace).reverse).dropWhile pySpace).reverse

/-- Python `str.strip()`. -/
def pyStrip (s : String) : String :=
  String.mk (pyStripL s.toList)

/-- Python `str.lower()` (ASCII letters; the classifier responses compared
against `"yes"` are ASCII). -/
def pyLower (s : String) : String :=
  String.mk (s.toList.map Char.toLower)

/-- Python `s.startswith(pre)`. -/
def pyStartsWith (s pre : String) : Bool :=
  pre.toList.isPrefixOf s.toList

/-- Python truthiness of an optional float: `None` and `0.0` are falsy. -/
def truthyTs : Option ℚ → Bool
  | none => false
  | some w => w != 0

/-! ### State store (`state.json`) -/

/-- Persisted sync state: `last_internal_ts` (watermark), `seen_ids`
(insertion-ordered id ↦ timestamp map, modelled as an association list) and
`last_run_at`, exactly the three keys `load_state` returns. -/
structure SyncState where
  last_internal_ts : Option ℚ
  seen_ids : List (String × ℚ)
  last_run_at : Option ℚ
deriving DecidableEq, Repr

/-- Embeds `load_state(backfill_days)`.  The filesystem is made explicit:
`stateFile = none` means `state.json` is absent, `some none` that it exists
but reading/parsing raises, `some (some s)` that it parses to `s` (with the
`dict.get` defaults applied).  Likewise `legacyFile` for
`last_executed_date.txt`.  Note the source never uses `backfill_days`. -/
def load_state (backfill_days : ℤ) (stateFile : Option (Option SyncState))
    (legacyFile : Option (Option ℚ)) : SyncState :=
  match backfill_days, stateFile with
  | _, some (some s) => s
  | _, _ =>
    match legacyFile with
    | some (some ts) => ⟨some ts, [], none⟩
    | _ => ⟨none, [], none⟩

/-- Embeds `prune_seen_ids(state, lookback_seconds)`: `if not last_ts: return`
(so an absent or zero watermark disables pruning), else keep the entries with
`ts >= last_ts - lookback_seconds`. -/
def prune_seen_ids (st : SyncState) (lookback_seconds : ℚ) : SyncState :=
  match st.last_internal_ts with
  | none => st
  | some w =>
    if w = 0 then st
    else
      let cutoff := w - lookback_seconds
      { st with seen_ids := st.seen_ids.filter (fun p => p.2 ≥ cutoff) }

/-! ### Query-window computation (`main`, lines 360-372) -/

/-- Embeds the query-start computation of `main`: `if last_ts:` takes the
cushion branch `max(0, last_ts - lookback_seconds)`, else the backfill branch
`now - backfill_days * 24 * 60 * 60`. -/
def query_start (last_ts : Option ℚ) (lookback_seconds : ℚ) (now : ℚ)
    (backfill_days : ℚ) : ℚ :=
  if truthyTs last_ts then max 0 (last_ts.getD 0 - lookback_seconds)
  else now - backfill_days * (24 * 60 * 60)

/-! ### HTML-to-text conversion (`html_to_text`, lines 198-215)

Each `re.sub(pattern, repl, s)` call is modelled by a left-to-right scan:
at each position the (deterministic) pattern matcher either yields a
replacement together with the number of characters consumed, or the scan
moves one character on.  The matchers below transcribe the exact patterns
of the source, including the `(?i)` case-insensitivity and the fact that
the script/style pattern's closing delimiter is the five-character literal
matched by the doubly-escaped group reference in the raw string. -/

/-- Left-to-right regex-substitution scan.  `scanSub m k s` emits the
replacement of each leftmost, non-overlapping match of `m` and continues
right after it (`k` is the number of already-consumed characters still to
skip).  Matchers never report zero consumed characters. -/
def scanSub (m : List Char → Option (List Char × ℕ)) : ℕ → List Char → List Char
  | _, [] => []
  | k, c :: cs =>
    match k with
    | n + 1 => scanSub m n cs
    | 0 =>
      match m (c :: cs) with
      | some (rep, n + 1) => rep ++ scanSub m n cs
      | _ => c :: scanSub m 0 cs

/-- Index of the first occurrence of `lit` in `s`, if any. -/
def findSub (lit : List Char) : List Char → Option ℕ
  | [] => if lit.isEmpty then some 0 else none
  | c :: cs => if lit.isPrefixOf (c :: cs) then some 0 else (findSub lit cs).map (· + 1)

/-- Matcher for `(?is)<(script|style)[^>]*>.*?</\\1>`.  In the source this
pattern lives in a raw string, so `\\1` reaches the regex engine as the two
characters backslash-one: the closing delimiter is the literal `</\1>`,
not a back-reference to the opened tag. -/
def matchScriptStyle (s : List Char) : Option (List Char × ℕ) :=
  match s with
  | '<' :: rest =>
    let tryTag := fun (tag : List Char) =>
      if (rest.take tag.length).map Char.toLower = tag then
        let rest2 := rest.drop tag.length
        let inner := rest2.takeWhile (fun c => c ≠ '>')
        match rest2.drop inner.length with
        | '>' :: rest3 =>
          match findSub ['<', '/', '\\', '1', '>'] rest3 with
          | some i => some (([] : List Char), 1 + tag.length + inner.length + 1 + i + 5)
          | none => none
        | _ => none
      else none
    match tryTag ['s', 'c', 'r', 'i', 'p', 't'] with
    | some r => some r
    | none => tryTag ['s', 't', 'y', 'l', 'e']
  | _ => none

/-- Matcher for `(?i)<br\s*/?>` (replaced by a newline). -/
def matchBr (s : List Char) : Option (List Char × ℕ) :=
  match s with
  | '<' :: c1 :: c2 :: rest =>
    if c1.toLower = 'b' && c2.toLower = 'r' then
      let ws := rest.takeWhile pySpace
      match rest.drop ws.length with
      | '>' :: _ => some (['\n'], 4 + ws.length)
      | '/' :: '>' :: _ => some (['\n'], 5 + ws.length)
      | _ => none
    else none
  | _ => none

/-- Matcher for a case-insensitive literal `lit` (given lowercased),
replaced by `rep`. -/
def matchLitCI (lit rep : List Char) (s : List Char) : Option (List Char × ℕ) :=
  if (s.take lit.length).map Char.toLower = lit ∧ lit.length ≤ s.length then
    some (rep, lit.length)
  else none

/-- Matcher for `<[^>]+>` (stripped). -/
def matchTag (s : List Char) : Option (List Char × ℕ) :=
  match s with
  | '<' :: rest =>
    let inner := rest.takeWhile (fun c => c ≠ '>')
    if inner.length = 0 then none
    else
      match rest.drop inner.length with
      | '>' :: _ => some ([], 2 + inner.length)
      | _ => none
  | _ => none

/-- Matcher for the entity references `html.unescape` resolves, restricted
to the basic named and decimal forms that occur in mail bodies (the stdlib
table is far larger; on inputs using only these entities the behaviour
agrees). -/
def matchEntity (s : List Char) : Option (List Char × ℕ) :=
  match s with
  | '&' :: 'l' :: 't' :: ';' :: _ => some (['<'], 4)
  | '&' :: 'g' :: 't' :: ';' :: _ => some (['>'], 4)
  | '&' :: 'a' :: 'm' :: 'p' :: ';' :: _ => some (['&'], 5)
  | '&' :: 'q' :: 'u' :: 'o' :: 't' :: ';' :: _ => some (['"'], 6)
  | '&' :: '#' :: '3' :: '9' :: ';' :: _ => some (['\''], 5)
  | '&' :: 'n' :: 'b' :: 's' :: 'p' :: ';' :: _ => some ([' '], 6)
  | _ => none

/-- Matcher for `\r\n|\r` (normalised to `\n`). -/
def matchCR (s : List Char) : Option (List Char × ℕ) :=
  match s with
  | '\r' :: '\n' :: _ => some (['\n'], 2)
  | '\r' :: _ => some (['\n'], 1)
  | _ => none

/-- Scan for `\n{3,}` → `\n\n`: `nlRun` is the count of consecutive
newlines read so far; a maximal run of three or more newlines is emitted
as exactly two. -/
def emitNLRun (p : ℕ) : List Char :=
  if p ≥ 3 then ['\n', '\n'] else List.replicate p '\n'

/-- Collapse runs of three or more newlines to two (the `\n{3,}` sub). -/
def collapseGo (p : ℕ) : List Char → List Char
  | [] => emitNLRun p
  | c :: cs =>
    if c = '\n' then collapseGo (p + 1) cs
    else emitNLRun p ++ (c :: collapseGo 0 cs)

/-- Embeds `html_to_text`: the empty-input early return followed by the
substitution pipeline in source order, ending with `.strip()`. -/
def html_to_text (html : String) : String :=
  if html = "" then ""
  else
    let t0 := scanSub matchScriptStyle 0 html.toList
    let t1 := scanSub matchBr 0 t0
    let t2 := scanSub (matchLitCI ['<', '/', 'p', '>'] ['\n', '\n']) 0 t1
    let t3 := scanSub (matchLitCI ['<', '/', 'd', 'i', 'v', '>'] ['\n']) 0 t2
    let t4 := scanSub (matchLitCI ['<', '/', 'l', 'i', '>'] ['\n']) 0 t3
    let t5 := scanSub matchTag 0 t4
    let t6 := scanSub matchEntity 0 t5
    let t7 := scanSub matchCR 0 t6
    let t8 := collapseGo 0 t7
    String.mk (pyStripL t8)

/-- Whether the first two characters are both newlines. -/
def twoNL : List Char → Bool
  | c1 :: c2 :: _ => c1 = '\n' && c2 = '\n'
  | _ => false

/-- Whether the text contains three consecutive newline characters. -/
def containsRun3NL : List Char → Bool
  | [] => false
  | c :: cs => (c = '\n' && twoNL cs) || containsRun3NL cs

/-- Whether `pat` occurs as a contiguous substring of the text. -/
def containsSub (pat : List Char) : List Char → Bool
  | [] => pat.isEmpty
  | c :: cs => pat.isPrefixOf (c :: cs) || containsSub pat cs

/-! ### Content extraction (`get_email_content`, lines 177-255)

A Gmail payload is a tree of parts, each carrying a `mimeType`, an optional
`body.data` (base64url text) and a list of sub-parts (absent and empty
`parts` behave identically: no iteration).  Decoding (`decode_part_data`)
calls the provider's base64 machinery and is passed in as a function; a
decode failure is a part that decodes to `""`. -/

mutual
/-- One node of the `payload` tree. -/
inductive Part where
  | mk (mimeType : String) (data : Option String) (parts : PartList)
/-- The `parts` list of a node. -/
inductive PartList where
  | nil
  | cons (p : Part) (ps : PartList)
end

/-- The `mimeType` field of a part. -/
def Part.mimeType : Part → String
  | .mk m _ _ => m

/-- The `body.data` field of a part. -/
def Part.data : Part → Option String
  | .mk _ d _ => d

mutual
/-- Embeds `collect_texts(part, acc)`: recurse into sub-parts first, then, if
`data` and `mimeType` are both truthy, append the decoded data to the
`plain` (first) or `html` (second) accumulator according to
`mimeType.startswith`. -/
def collect_texts (decode : String → String) : Part → List String × List String
  | .mk mime data parts =>
    let sub := collect_list decode parts
    match data with
    | some d =>
      if d ≠ "" ∧ mime ≠ "" then
        if pyStartsWith mime "text/plain" then (sub.1 ++ [decode d], sub.2)
        else if pyStartsWith mime "text/html" then (sub.1, sub.2 ++ [decode d])
        else sub
      else sub
    | none => sub

/-- Accumulators of `collect_texts` over a list of sub-parts, in order. -/
def collect_list (decode : String → String) : PartList → List String × List String
  | .nil => ([], [])
  | .cons p ps =>
    let a := collect_texts decode p
    let b := collect_list decode ps
    (a.1 ++ b.1, a.2 ++ b.2)
end

/-- Embeds the body-selection logic of `get_email_content` (the subject
header and the service call are outside the model): prefer the plain parts,
else the HTML parts converted by `html_to_text`, else the top-level body
data. -/
def get_content (decode : String → String) (payload : Part) : String :=
  let texts := collect_texts decode payload
  if texts.1 ≠ [] then String.intercalate "\n\n" (texts.1.filter (fun t => t ≠ ""))
  else if texts.2 ≠ [] then
    html_to_text (String.intercalate "\n\n" (texts.2.filter (fun t => t ≠ "")))
  else
    match payload.data with
    | some d =>
      if d ≠ "" then
        if pyStartsWith payload.mimeType "text/html" then html_to_text (decode d)
        else decode d
      else ""
    | none => ""

/-! ### Classifier adapter (`autolabel_openai`, `analyze_email_with_llm`) -/

/-- Embeds `autolabel_openai(content)` as a function of the two model
responses: the relevance verdict is `response1.strip().lower() == "yes"`;
only then is the label prompt sent and its response stripped.  The second
component counts the API calls made (1 or 2). -/
def autolabel_openai (resp1 resp2 : String) : (Bool × Option String) × ℕ :=
  if pyLower (pyStrip resp1) = "yes" then ((true, some (pyStrip resp2)), 2)
  else ((false, none), 1)

/-- Python `content[:22000] + "..."`, the truncation in
`analyze_email_with_llm`. -/
def truncate_content (content : String) : String :=
  content.take 22000 ++ "..."

/-- Observable side effects of a run, for stating which calls happen. -/
inductive Effect where
  | fetch (id : String)
  | classifyCall (k : ℕ)
  | sleepSec (n : ℕ)
  | applyLabel (id : String) (labelName : String)
deriving DecidableEq, Repr

/-- Embeds `analyze_email_with_llm(content)`: truncate, try
`autolabel_openai`; on an exception sleep 60 seconds and retry once; a
second exception is `exit(1)`, modelled as `none`.  `attempts tc k` is the
outcome of the `k`-th `autolabel_openai` attempt of the run on truncated
content `tc` (`none` = the OpenAI call raised); the returned counter is the
next attempt index. -/
def analyze_email_with_llm (attempts : String → ℕ → Option (Bool × Option String))
    (content : String) (k : ℕ) :
    Option ((Bool × Option String) × ℕ) × List Effect :=
  let tc := truncate_content content
  match attempts tc k with
  | some r => (some (r, k + 1), [.classifyCall k])
  | none =>
    match attempts tc (k + 1) with
    | some r => (some (r, k + 2), [.classifyCall k, .sleepSec 60, .classifyCall (k + 1)])
    | none => (none, [.classifyCall k, .sleepSec 60, .classifyCall (k + 1)])

/-! ### The per-message loop of `main` (lines 353-428) -/

/-- A candidate message as `main` sees it: its id and `internalDate`
(milliseconds, a natural number in the provider's data). -/
structure Msg where
  id : String
  internalDate : ℕ
deriving DecidableEq, Repr

/-- The timestamp `int(internalDate) / 1000` used throughout `main`. -/
def Msg.ts (m : Msg) : ℚ := (m.internalDate : ℚ) / 1000

/-- Embeds the watermark update `if not last_ts or internal_timestamp >
last_ts: last_ts = internal_timestamp` (Python truthiness: a zero watermark
counts as absent). -/
def advance (last : Option ℚ) (ts : ℚ) : Option ℚ :=
  match last with
  | none => some ts
  | some w => if w = 0 ∨ ts > w then some ts else some w

/-- The spec's `max(watermark, internalTimestamp)` with an absent watermark
taken as the timestamp itself. -/
def maxTs : Option ℚ → ℚ → ℚ
  | none, ts => ts
  | some w, ts => max w ts

/-- In-run loop state: the local `last_ts`, the `seen_ids` dict and the
index of the next classifier attempt. -/
structure LoopSt where
  last : Option ℚ
  seen : List (String × ℚ)
  calls : ℕ
deriving DecidableEq, Repr

/-- Embeds one iteration of the `for msg in emails` loop: the dedupe skip,
the empty-content path, and the classify/label path.  `content id` is what
`get_email_content` returns for the message (a service call, passed in as a
function); `none` in the first component means the run died in `exit(1)`.
The effect list records the service and classifier calls the iteration
makes. -/
def process_message (content : String → String)
    (attempts : String → ℕ → Option (Bool × Option String))
    (st : LoopSt) (m : Msg) : Option LoopSt × List Effect :=
  let ts := m.ts
  if (st.seen.lookup m.id).isSome then
    (some { st with last := advance st.last ts }, [])
  else
    let c := content m.id
    if c = "" then
      (some ⟨advance st.last ts, st.seen ++ [(m.id, ts)], st.calls⟩, [.fetch m.id])
    else
      match analyze_email_with_llm attempts c st.calls with
      | (none, fx) => (none, .fetch m.id :: fx)
      | (some ((about_job, labelR), k'), fx) =>
        let labelFx :=
          if about_job then [Effect.applyLabel m.id ("Jobs/" ++ labelR.getD "")] else []
        (some ⟨advance st.last ts, st.seen ++ [(m.id, ts)], k'⟩,
          .fetch m.id :: fx ++ labelFx)

/-- The whole `for` loop; stops (returning `none`) when an iteration exits
the process. -/
def run_loop (content : String → String)
    (attempts : String → ℕ → Option (Bool × Option String)) :
    LoopSt → List Msg → Option LoopSt × List Effect
  | st, [] => (some st, [])
  | st, m :: ms =>
    match process_message content attempts st m with
    | (none, fx) => (none, fx)
    | (some st', fx) =>
      let r := run_loop content attempts st' ms
      (r.1, fx ++ r.2)

/-- Embeds `main` from the point where the candidate list is known: the
early save when there are no emails, else the loop, then `last_run_at`,
pruning and the atomic save.  The first component is the state passed to
`save_state_atomic`, or `none` when the run aborted before saving (the
state file then still holds the pre-run state). -/
def run_main (content : String → String)
    (attempts : String → ℕ → Option (Bool × Option String))
    (now : ℚ) (lookback_seconds : ℚ) (st0 : SyncState) (emails : List Msg) :
    Option SyncState × List Effect :=
  if emails = [] then
    (some { st0 with last_run_at := some now }, [])
  else
    match run_loop content attempts ⟨st0.last_internal_ts, st0.seen_ids, 0⟩ emails with
    | (none, fx) => (none, fx)
    | (some st, fx) =>
      (some (prune_seen_ids ⟨st.last, st.seen, some now⟩ lookback_seconds), fx)

/-! ### Helper lemmas -/

/-- Message timestamps (`internalDate / 1000`) are nonnegative. -/
lemma Msg.ts_nonneg (m : Msg) : 0 ≤ m.ts := by
  unfold Msg.ts
  positivity

/-- For a nonnegative candidate timestamp, the source's truthiness-guarded
watermark update computes exactly `max` (an absent watermark becomes the
timestamp). -/
lemma advance_eq_maxTs (l : Option ℚ) (ts : ℚ) (h : 0 ≤ ts) :
    advance l ts = some (maxTs l ts) := by
  cases l with
  | none => rfl
  | some w =>
    simp only [advance, maxTs]
    by_cases hw : w = 0
    · subst hw
      simp [max_eq_right h]
    · by_cases hlt : ts > w
      · simp [hw, hlt, max_eq_right (le_of_lt hlt)]
      · simp [hw, hlt, max_eq_left (le_of_not_lt hlt)]

/-- Any successful loop iteration sets the watermark to
`advance st.last m.ts`. -/
lemma process_message_last {content attempts st m st' fx}
    (hp : process_message content attempts st m = (some st', fx)) :
    st'.last = advance st.last m.ts := by
  simp only [process_message] at hp
  split at hp
  · injection hp with h1 _
    injection h1 with h1
    rw [← h1]
  · split at hp
    · injection hp with h1 _
      injection h1 with h1
      rw [← h1]
    · split at hp
      · cases hp
      · injection hp with h1 _
        injection h1 with h1
        rw [← h1]

/-- Watermark monotonicity of the whole loop: if it starts present it stays
present and never decreases. -/
lemma run_loop_mono (content : String → String)
    (attempts : String → ℕ → Option (Bool × Option String)) :
    ∀ (msgs : List Msg) (st stF : LoopSt) (fx : List Effect) (w : ℚ),
      st.last = some w →
      run_loop content attempts st msgs = (some stF, fx) →
      ∃ w', stF.last = some w' ∧ w ≤ w' := by
  intro msgs
  induction msgs with
  | nil =>
    intro st stF fx w hw h
    simp only [run_loop] at h
    injection h with h1 _
    injection h1 with h1
    exact ⟨w, h1 ▸ hw, le_refl w⟩
  | cons m ms ih =>
    intro st stF fx w hw h
    simp only [run_loop] at h
    rcases hp : process_message content attempts st m with ⟨o, fx1⟩
    rw [hp] at h
    cases o with
    | none => simp at h
    | some st1 =>
      dsimp only at h
      rcases hr : run_loop content attempts st1 ms with ⟨o2, fx2⟩
      rw [hr] at h
      dsimp only at h
      injection h with h1 _
      have hlast : st1.last = advance st.last m.ts := process_message_last hp
      rw [hw, advance_eq_maxTs _ _ m.ts_nonneg] at hlast
      rcases ih st1 stF fx2 (maxTs (some w) m.ts) hlast (by rw [hr, h1]) with ⟨w', hw', hle⟩
      exact ⟨w', hw', le_trans (le_max_left w m.ts) hle⟩

/-- Pruning never touches the watermark. -/
lemma prune_seen_ids_last (st : SyncState) (L : ℚ) :
    (prune_seen_ids st L).last_internal_ts = st.last_internal_ts := by
  unfold prune_seen_ids
  rcases st with ⟨l, s, r⟩
  cases l with
  | none => rfl
  | some w =>
    by_cases h : w = 0 <;> simp [h]

/-! ### Claims -/

/-- C1: across any sequence of runs the persisted watermark is monotonically
non-decreasing: whenever a run that loaded watermark `w` reaches its
`save_state_atomic` (result `some st'`), the persisted watermark is present
and at least `w`.  (Runs that abort persist nothing, and each run loads what
the previous one persisted, so the property chains across runs.) -/
theorem C1_watermark_monotone (content : String → String)
    (attempts : String → ℕ → Option (Bool × Option String))
    (now lookback : ℚ) (st0 : SyncState) (emails : List Msg)
    (w : ℚ) (st' : SyncState) (fx : List Effect)
    (hw : st0.last_internal_ts = some w)
    (hr : run_main content attempts now lookback st0 emails = (some st', fx)) :
    ∃ w', st'.last_internal_ts = some w' ∧ w ≤ w' := by
  unfold run_main at hr
  split at hr
  · injection hr with h1 _
    injection h1 with h1
    refine ⟨w, ?_, le_refl w⟩
    rw [← h1]
    exact hw
  · rcases hl : run_loop content attempts ⟨st0.last_internal_ts, st0.seen_ids, 0⟩ emails
      with ⟨o, fx1⟩
    rw [hl] at hr
    cases o with
    | none => cases hr
    | some st1 =>
      injection hr with h1 _
      injection h1 with h1
      rcases run_loop_mono content attempts emails _ st1 fx1 w hw hl with ⟨w', hw', hle⟩
      refine ⟨w', ?_, hle⟩
      rw [← h1, prune_seen_ids_last]
      exact hw'

/-- C1 witness: a run loaded at watermark 5 over one message with timestamp 7
persists watermark 7 ≥ 5. -/
theorem C1_witness :
    ∃ w', (⟨some 7, [("a", 7)], some 100⟩ : SyncState).last_internal_ts = some w' ∧
      (5 : ℚ) ≤ w' :=
  C1_watermark_monotone (fun _ => "") (fun _ _ => none) 100 2 ⟨some 5, [], none⟩
    [⟨"a", 7000⟩] 5 ⟨some 7, [("a", 7)], some 100⟩ [.fetch "a"] rfl
    (by simp [run_main, run_loop, process_message, advance, Msg.ts, prune_seen_ids]; norm_num)

/-- C2: a candidate whose id is already in `seen_ids` is skipped without any
fetch, classification or labelling (no effects at all), and the watermark
still advances to `max(watermark, internalTimestamp)`; the rest of the loop
state is unchanged. -/
theorem C2_seen_skip (content : String → String)
    (attempts : String → ℕ → Option (Bool × Option String))
    (st : LoopSt) (m : Msg) (h : (st.seen.lookup m.id).isSome) :
    process_message content attempts st m
      = (some { st with last := some (maxTs st.last m.ts) }, []) := by
  unfold process_message
  rw [if_pos h, advance_eq_maxTs _ _ m.ts_nonneg]

/-- C2 witness: message "a" (timestamp 7) already seen at timestamp 3,
current watermark 5: no effects, watermark becomes `max 5 7 = 7`. -/
theorem C2_witness :
    process_message (fun _ => "body") (fun _ _ => none) ⟨some 5, [("a", 3)], 0⟩ ⟨"a", 7000⟩
      = (some ⟨some 7, [("a", 3)], 0⟩, []) :=
  (C2_seen_skip (fun _ => "body") (fun _ _ => none) ⟨some 5, [("a", 3)], 0⟩ ⟨"a", 7000⟩
    (by decide)).trans (by norm_num [maxTs, Msg.ts])

/-- C9: a candidate not in `seen_ids` whose extracted content is empty is
marked seen with its timestamp, the watermark advances to
`max(watermark, internalTimestamp)`, only the content fetch happens — no
classifier call and no label application. -/
theorem C9_empty_content (content : String → String)
    (attempts : String → ℕ → Option (Bool × Option String))
    (st : LoopSt) (m : Msg)
    (h1 : st.seen.lookup m.id = none) (h2 : content m.id = "") :
    process_message content attempts st m
      = (some ⟨some (maxTs st.last m.ts), st.seen ++ [(m.id, m.ts)], st.calls⟩,
          [.fetch m.id]) := by
  simp [process_message, h1, h2, advance_eq_maxTs _ _ m.ts_nonneg]

/-- C9 witness: fresh message "b" (timestamp 7) with empty content, watermark
5: it is recorded in `seen_ids`, the watermark moves to 7, and the only
effect is the fetch. -/
theorem C9_witness :
    process_message (fun _ => "") (fun _ _ => none) ⟨some 5, [("a", 3)], 0⟩ ⟨"b", 7000⟩
      = (some ⟨some 7, [("a", 3), ("b", 7)], 0⟩, [.fetch "b"]) :=
  (C9_empty_content (fun _ => "") (fun _ _ => none) ⟨some 5, [("a", 3)], 0⟩ ⟨"b", 7000⟩
    (by decide) rfl).trans (by norm_num [maxTs, Msg.ts])

/-- C3 counterexample: the claim says pruning removes exactly the entries
with timestamp `< watermark - lookbackWindow` for every present watermark,
but at the present watermark `0` the source's `if not last_ts: return`
(Python truthiness) skips pruning entirely: with lookback 10 the entry at
timestamp −100 is below the cutoff −10 yet is kept. -/
theorem C3_counterexample :
    prune_seen_ids ⟨some 0, [("a", -100)], none⟩ 10 = ⟨some 0, [("a", -100)], none⟩ ∧
    (-100 : ℚ) < 0 - 10 := by
  constructor
  · simp [prune_seen_ids]
  · norm_num

/-- C3 (amended): for every state with a present *nonzero* watermark `w` and
every lookback `L`, pruning keeps exactly the `seen` entries with timestamp
`≥ w - L` (removing exactly those `< w - L`) and changes no other field;
with an absent or zero watermark pruning is a no-op. -/
theorem C3_prune_exact_nonzero (st : SyncState) (L w : ℚ)
    (h1 : st.last_internal_ts = some w) (h2 : w ≠ 0) :
    (prune_seen_ids st L).seen_ids = st.seen_ids.filter (fun p => p.2 ≥ w - L) ∧
    (∀ i ts, (i, ts) ∈ (prune_seen_ids st L).seen_ids ↔
      (i, ts) ∈ st.seen_ids ∧ ts ≥ w - L) ∧
    (prune_seen_ids st L).last_internal_ts = st.last_internal_ts ∧
    (prune_seen_ids st L).last_run_at = st.last_run_at := by
  have hp : prune_seen_ids st L
      = { st with seen_ids := st.seen_ids.filter (fun p => p.2 ≥ w - L) } := by
    unfold prune_seen_ids
    rw [h1]
    simp [h2]
  refine ⟨by rw [hp], ?_, by rw [hp], by rw [hp]⟩
  intro i ts
  rw [hp]
  simp [List.mem_filter]

/-- C3 witness: watermark 10, lookback 2 (cutoff 8): the entry at 3 is
removed, the entry at 9 kept, watermark and `last_run_at` untouched. -/
theorem C3_witness :
    (prune_seen_ids ⟨some 10, [("a", 3), ("b", 9)], some 1⟩ 2).seen_ids = [("b", 9)] ∧
    (prune_seen_ids ⟨some 10, [("a", 3), ("b", 9)], some 1⟩ 2).last_internal_ts = some 10 ∧
    (prune_seen_ids ⟨some 10, [("a", 3), ("b", 9)], some 1⟩ 2).last_run_at = some 1 := by
  have h := C3_prune_exact_nonzero ⟨some 10, [("a", 3), ("b", 9)], some 1⟩ 2 10 rfl
    (by norm_num)
  refine ⟨h.1.trans ?_, h.2.2.1, h.2.2.2⟩
  norm_num [List.filter]

/-- C6 counterexample: with no state file and no legacy file, `load_state`
returns an *absent* watermark, not `now - backfillWindow` (instantiated at
`now = 0`, backfill 14 days: the claimed value would be `some (0 - 14·86400)`). -/
theorem C6_counterexample :
    (load_state 14 none none).last_internal_ts = none ∧
    (load_state 14 none none).last_internal_ts ≠ some ((0 : ℚ) - 14 * 86400) := by
  exact ⟨rfl, by simp [load_state]⟩

/-- C6 (amended): when neither a well-formed state file nor a parseable
legacy record exists, `load_state` returns the fresh state with absent
watermark, empty `seen_ids` and absent `last_run_at` (its `backfill_days`
argument is unused; the backfill window is applied later, by the
query-start computation, when the watermark is absent). -/
theorem C6_fresh_state : ∀ d : ℤ,
    load_state d none none = ⟨none, [], none⟩ ∧
    load_state d (some none) none = ⟨none, [], none⟩ ∧
    load_state d none (some none) = ⟨none, [], none⟩ ∧
    load_state d (some none) (some none) = ⟨none, [], none⟩ :=
  fun _ => ⟨rfl, rfl, rfl, rfl⟩

/-- C7 counterexample: the claim says the cushion branch applies to every
present watermark including `w = 0`, but at watermark `0` the source's
`if last_ts:` is falsy and the backfill branch runs: with lookback 5,
`now = 1000`, backfill 1 day the result is `1000 - 86400`, not
`max 0 (0 - 5) = 0`. -/
theorem C7_counterexample :
    query_start (some 0) 5 1000 1 = 1000 - 86400 ∧
    (1000 - 86400 : ℚ) ≠ max 0 (0 - 5) := by
  constructor
  · norm_num [query_start, truthyTs]
  · norm_num

/-- C7 (amended): the cushion branch `max(0, w - lookback)` applies exactly
to present *nonzero* watermarks; an absent or zero watermark takes the
backfill branch `now - backfillDays·86400`. -/
theorem C7_query_start (last : Option ℚ) (L now d : ℚ) :
    (∀ w, last = some w → w ≠ 0 → query_start last L now d = max 0 (w - L)) ∧
    ((last = none ∨ last = some 0) → query_start last L now d = now - d * (24 * 60 * 60)) := by
  constructor
  · intro w hw hz
    subst hw
    simp [query_start, truthyTs, hz]
  · rintro (h | h) <;> subst h <;> simp [query_start, truthyTs]

/-- C7 witness: watermark 5, lookback 2 gives `max 0 3`; watermark 0 with
backfill 1 day gives `100 - 86400`. -/
theorem C7_witness :
    query_start (some 5) 2 100 1 = max 0 (5 - 2) ∧
    query_start (some 0) 2 100 1 = 100 - 1 * (24 * 60 * 60) :=
  ⟨(C7_query_start (some 5) 2 100 1).1 5 rfl (by norm_num),
   (C7_query_start (some 0) 2 100 1).2 (Or.inr rfl)⟩

/-- C8: on a classifier failure exactly one retry is made after a fixed
60-second sleep (first two conjuncts: the retry result is used, resp. the
run dies); and a run whose first fresh message hits a double classifier
failure returns `none` — `save_state_atomic` is never reached, so the
persisted state is exactly the pre-run state. -/
theorem C8_retry_then_abort :
    (∀ (attempts : String → ℕ → Option (Bool × Option String)) (c : String) (k : ℕ) r,
      attempts (truncate_content c) k = none →
      attempts (truncate_content c) (k + 1) = some r →
      analyze_email_with_llm attempts c k
        = (some (r, k + 2), [.classifyCall k, .sleepSec 60, .classifyCall (k + 1)])) ∧
    (∀ (attempts : String → ℕ → Option (Bool × Option String)) (c : String) (k : ℕ),
      attempts (truncate_content c) k = none →
      attempts (truncate_content c) (k + 1) = none →
      analyze_email_with_llm attempts c k
        = (none, [.classifyCall k, .sleepSec 60, .classifyCall (k + 1)])) ∧
    (∀ (content : String → String) (attempts : String → ℕ → Option (Bool × Option String))
      (now lookback : ℚ) (st0 : SyncState) (m : Msg) (ms : List Msg),
      st0.seen_ids.lookup m.id = none →
      content m.id ≠ "" →
      attempts (truncate_content (content m.id)) 0 = none →
      attempts (truncate_content (content m.id)) 1 = none →
      run_main content attempts now lookback st0 (m :: ms)
        = (none, [.fetch m.id, .classifyCall 0, .sleepSec 60, .classifyCall 1])) := by
  refine ⟨?_, ?_, ?_⟩
  · intro attempts c k r h1 h2
    simp [analyze_email_with_llm, h1, h2]
  · intro attempts c k h1 h2
    simp [analyze_email_with_llm, h1, h2]
  · intro content attempts now lookback st0 m ms hseen hc h1 h2
    have hstep : process_message content attempts ⟨st0.last_internal_ts, st0.seen_ids, 0⟩ m
        = (none, [.fetch m.id, .classifyCall 0, .sleepSec 60, .classifyCall 1]) := by
      simp [process_message, hseen, hc, analyze_email_with_llm, h1, h2]
    simp [run_main, run_loop, hstep]

/-- C8 witness: one fresh non-empty message, every classifier attempt
raising: the run makes the fetch, two classifier calls separated by the
60-second sleep, and aborts without a state to persist. -/
theorem C8_witness :
    run_main (fun _ => "B") (fun _ _ => none) 100 2 ⟨some 5, [], none⟩ [⟨"a", 7000⟩]
      = (none, [.fetch "a", .classifyCall 0, .sleepSec 60, .classifyCall 1]) :=
  C8_retry_then_abort.2.2 (fun _ => "B") (fun _ _ => none) 100 2 ⟨some 5, [], none⟩
    ⟨"a", 7000⟩ [] rfl (by decide) rfl rfl

/-- C10: the relevance verdict of `autolabel_openai` is `true` exactly when
the first response, stripped and lowercased, is the string `"yes"`; on any
other response the verdict is `false`, only one API call is made and the
label is `None`. -/
theorem C10_relevance_exact (resp1 resp2 : String) :
    ((autolabel_openai resp1 resp2).1.1 = true ↔ pyLower (pyStrip resp1) = "yes") ∧
    ((autolabel_openai resp1 resp2).1.1 = false →
      (autolabel_openai resp1 resp2).2 = 1 ∧ (autolabel_openai resp1 resp2).1.2 = none) := by
  unfold autolabel_openai
  by_cases h : pyLower (pyStrip resp1) = "yes" <;> simp [h]

/-- C10 witness: `"  Yes "` strips and lowercases to `"yes"` (relevant);
`"yes."` and `"Yes, it is"` do not: verdict false, a single call, no
label. -/
theorem C10_witness :
    ((autolabel_openai "  Yes " "Applied").1.1 = true ↔
      pyLower (pyStrip "  Yes ") = "yes") ∧
    ((autolabel_openai "yes." "x").2 = 1 ∧ (autolabel_openai "yes." "x").1.2 = none) ∧
    ((autolabel_openai "Yes, it is" "x").2 = 1 ∧
      (autolabel_openai "Yes, it is" "x").1.2 = none) :=
  ⟨(C10_relevance_exact "  Yes " "Applied").1,
   (C10_relevance_exact "yes." "x").2 (by decide),
   (C10_relevance_exact "Yes, it is" "x").2 (by decide)⟩

/-- C5: when the collected `text/plain` parts contain at least one that
decodes to non-empty text, `get_email_content` returns the blank-line join
of the (non-empty) plain parts; the result depends only on the collected
plain list, so the `text/html` parts are ignored wherever they sit in the
tree. -/
theorem C5_plain_preferred (decode : String → String) (payload : Part)
    (h : ∃ t ∈ (collect_texts decode payload).1, t ≠ "") :
    get_content decode payload
      = String.intercalate "\n\n"
          ((collect_texts decode payload).1.filter (fun t => t ≠ "")) ∧
    ∀ payload' : Part,
      (collect_texts decode payload').1 = (collect_texts decode payload).1 →
      get_content decode payload' = get_content decode payload := by
  have hne : (collect_texts decode payload).1 ≠ [] := by
    rcases h with ⟨t, ht, _⟩
    exact List.ne_nil_of_mem ht
  have key : ∀ q : Part,
      (collect_texts decode q).1 = (collect_texts decode payload).1 →
      get_content decode q = String.intercalate "\n\n"
        ((collect_texts decode payload).1.filter (fun t => t ≠ "")) := by
    intro q hq
    simp only [get_content]
    rw [hq, if_pos hne]
  exact ⟨key payload rfl, fun p' hp' => (key p' hp').trans (key payload rfl).symm⟩

/-- C5 witness: an HTML part appearing before the only plain part; the
output is the plain text. -/
theorem C5_witness :
    get_content id (.mk "multipart/alternative" none
      (.cons (.mk "text/html" (some "<b>H</b>") .nil)
        (.cons (.mk "text/plain" (some "P") .nil) .nil))) = "P" := by
  have h := C5_plain_preferred id (.mk "multipart/alternative" none
      (.cons (.mk "text/html" (some "<b>H</b>") .nil)
        (.cons (.mk "text/plain" (some "P") .nil) .nil)))
    ⟨"P", by simp [collect_texts, collect_list, pyStartsWith], by decide⟩
  refine h.1.trans ?_
  simp [collect_texts, collect_list, pyStartsWith]
  decide

/-! ### Newline-run lemmas for `html_to_text` -/

/-- A two-newline test on a list headed by a non-newline character fails. -/
lemma twoNL_cons_of_ne {c : Char} (hc : c ≠ '\n') (X : List Char) :
    twoNL (c :: X) = false := by
  cases X <;> simp [twoNL, hc]

/-- Prepending a non-newline character cannot create a newline triple. -/
lemma run3_cons_of_ne {c : Char} (hc : c ≠ '\n') (X : List Char) :
    containsRun3NL (c :: X) = containsRun3NL X := by
  simp only [containsRun3NL, decide_eq_false hc, Bool.false_and, Bool.false_or]

/-- Prepending one newline before a non-newline character cannot create a
newline triple. -/
lemma run3_nl_cons_of_ne {c : Char} (hc : c ≠ '\n') (X : List Char) :
    containsRun3NL ('\n' :: c :: X) = containsRun3NL X := by
  simp only [containsRun3NL, twoNL_cons_of_ne hc, Bool.and_false, Bool.false_or]
  exact run3_cons_of_ne hc X

/-- Prepending two newlines before a non-newline character cannot create a
newline triple. -/
lemma run3_nl_nl_cons_of_ne {c : Char} (hc : c ≠ '\n') (X : List Char) :
    containsRun3NL ('\n' :: '\n' :: c :: X) = containsRun3NL X := by
  have h2 : twoNL ('\n' :: c :: X) = false := by
    simp [twoNL, hc]
  simp only [containsRun3NL, h2, Bool.and_false, Bool.false_or]
  exact run3_nl_cons_of_ne hc X

/-- A successful two-newline test exposes the two newlines. -/
lemma twoNL_true {cs : List Char} (h : twoNL cs = true) :
    ∃ t, cs = '\n' :: '\n' :: t := by
  match cs with
  | [] => simp [twoNL] at h
  | [c] => simp [twoNL] at h
  | c1 :: c2 :: t =>
    simp only [twoNL, Bool.and_eq_true, decide_eq_true_eq] at h
    exact ⟨t, by rw [h.1, h.2]⟩

/-- The triple-newline test detects exactly an infix `"\n\n\n"`. -/
lemma containsRun3NL_eq_true_iff (l : List Char) :
    containsRun3NL l = true ↔ ['\n', '\n', '\n'] <:+: l := by
  induction l with
  | nil => simp [containsRun3NL]
  | cons c cs ih =>
    simp only [containsRun3NL, Bool.or_eq_true, Bool.and_eq_true, decide_eq_true_eq, ih,
      List.infix_cons_iff]
    constructor
    · rintro (⟨rfl, h2⟩ | h)
      · rcases twoNL_true h2 with ⟨t, rfl⟩
        exact Or.inl ⟨t, rfl⟩
      · exact Or.inr h
    · rintro (⟨t, ht⟩ | h)
      · cases ht
        exact Or.inl ⟨rfl, by simp [twoNL]⟩
      · exact Or.inr h

/-- The two-sided strip keeps an infix of its input. -/
lemma pyStripL_infix_self (l : List Char) : pyStripL l <:+: l := by
  unfold pyStripL
  have h1 : l.dropWhile pySpace <:+ l := List.dropWhile_suffix pySpace
  have h2 : (l.dropWhile pySpace).reverse.dropWhile pySpace <:+ (l.dropWhile pySpace).reverse :=
    List.dropWhile_suffix pySpace
  have h3 : ((l.dropWhile pySpace).reverse.dropWhile pySpace).reverse <+: l.dropWhile pySpace := by
    rw [← List.reverse_suffix]
    simpa using h2
  exact h3.isInfix.trans h1.isInfix

/-- Stripping a triple-free text leaves it triple-free. -/
lemma pyStripL_no3 {X : List Char} (h : containsRun3NL X = false) :
    containsRun3NL (pyStripL X) = false := by
  by_contra hc
  rw [Bool.not_eq_false] at hc
  have : containsRun3NL X = true :=
    (containsRun3NL_eq_true_iff X).mpr
      (((containsRun3NL_eq_true_iff _).mp hc).trans (pyStripL_infix_self X))
  rw [h] at this
  cases this

/-- The block a newline run is emitted as is empty or one or two newlines. -/
lemma emitNLRun_cases (p : ℕ) :
    emitNLRun p = [] ∨ emitNLRun p = ['\n'] ∨ emitNLRun p = ['\n', '\n'] := by
  match p with
  | 0 => exact Or.inl rfl
  | 1 => exact Or.inr (Or.inl rfl)
  | 2 => exact Or.inr (Or.inr rfl)
  | n + 3 =>
    refine Or.inr (Or.inr ?_)
    simp [emitNLRun, show 3 ≤ n + 3 by omega]

/-- The newline-collapsing pass never outputs three consecutive newlines. -/
lemma collapseGo_no3 : ∀ (s : List Char) (p : ℕ),
    containsRun3NL (collapseGo p s) = false := by
  intro s
  induction s with
  | nil =>
    intro p
    rcases emitNLRun_cases p with h | h | h <;>
      simp [collapseGo, h, containsRun3NL, twoNL]
  | cons c cs ih =>
    intro p
    by_cases hc : c = '\n'
    · subst hc
      simpa only [collapseGo, if_pos rfl] using ih (p + 1)
    · simp only [collapseGo, if_neg hc]
      rcases emitNLRun_cases p with h | h | h <;> rw [h]
      · rw [List.nil_append, run3_cons_of_ne hc]
        exact ih 0
      · rw [List.cons_append, List.nil_append, run3_nl_cons_of_ne hc]
        exact ih 0
      · rw [List.cons_append, List.cons_append, List.nil_append, run3_nl_nl_cons_of_ne hc]
        exact ih 0

/-- C4 counterexample: on the input `"<script>var a=1; x&lt;y&gt;</script>"`
the conversion outputs `"var a=1; x<y>"` — the script block's inner content
survives (the removal pattern's closing delimiter is the literal `</\1>`,
which never occurs, and the generic tag-strip only removes the tags), and
entity unescaping, running after tag stripping, produces the tag-shaped
substring `"<y>"`. -/
theorem C4_counterexample :
    html_to_text "<script>var a=1; x&lt;y&gt;</script>" = "var a=1; x<y>" ∧
    containsSub "var a=1;".toList "var a=1; x<y>".toList = true ∧
    containsSub "<y>".toList "var a=1; x<y>".toList = true := by
  refine ⟨by decide, by decide, by decide⟩

/-- C4 (amended): of the claimed conjunction only the newline bound survives
on the code: for every input, the output of `html_to_text` never contains a
run of more than two consecutive newline characters (script/style inner
content is not removed, and tag-shaped substrings can be reintroduced by
entity unescaping, as the counterexample shows). -/
theorem C4_no_triple_newlines (html : String) :
    containsRun3NL (html_to_text html).toList = false := by
  unfold html_to_text
  split
  · decide
  · exact pyStripL_no3 (collapseGo_no3 _ 0)

end MindMyEmail
